import Mathlib

/-!
Verification of the RDS/Aurora upgrade tooling.

Python strings are modelled as `List Char`; a Python `None`-able value of
type `T` is modelled as `Option T`; machine-independent `int` values are
modelled as `Nat` (all integers appearing in the scripts are non-negative
version components, lengths and counters, except loop timeouts which are
modelled as `Int`).  Each definition carries a note naming the source
function it embeds.
-/

/-! ## String utilities shared by the scripts -/

/-- Split a list of characters on a separator character, mirroring Python's
`str.split(sep)` for a one-character separator: `"15.8".split('.')` gives
`["15", "8"]`, and splitting the empty string gives `[""]`. -/
def splitOnC (sep : Char) : List Char → List (List Char)
  | [] => [[]]
  | c :: cs =>
    match splitOnC sep cs with
    | [] => [[]]
    | p :: ps => if c = sep then [] :: p :: ps else (c :: p) :: ps

/-- Numeric value of a string of decimal digits, mirroring Python's `int()`
applied to a digit-only string. -/
def strToNat (s : List Char) : Nat :=
  s.foldl (fun n c => n * 10 + (c.toNat - '0'.toNat)) 0

/-- Python's `str.isdigit()` restricted to ASCII: non-empty and every
character a decimal digit. -/
def isDigitStr (p : List Char) : Bool :=
  !p.isEmpty && p.all Char.isDigit

/-- Python's substring containment `needle in hay` on strings: `needle`
occurs contiguously somewhere in `hay`. -/
def pyIn (needle : List Char) : List Char → Bool
  | [] => needle.isEmpty
  | c :: t => needle.isPrefixOf (c :: t) || pyIn needle t

/-! ## Version tuples (`scripts/get_older_rds.py`)

`parse_engine_version` embeds the function of the same name: it keeps only

the dot-separated components that pass `isdigit` and converts them with
`int`.  Note that for an all-ASCII input the generator inside the Python
function can never raise `ValueError`, so the documented `(float('inf'),)`
sentinel branch is unreachable; a fully non-numeric string like `"abc"`
simply produces the empty tuple.  `version_less_than` embeds the function
of the same name: both tuples are padded with zeros to a common length and
compared with Python's lexicographic tuple `<`. -/

def parse_engine_version (v : List Char) : List Nat :=
  ((splitOnC '.' v).filter isDigitStr).map strToNat

/-- Python's lexicographic `<` on tuples of non-negative integers. -/
def tupleLt : List Nat → List Nat → Bool
  | [], [] => false
  | [], _ :: _ => true
  | _ :: _, [] => false
  | a :: as, b :: bs => if a < b then true else if b < a then false else tupleLt as bs

/-- `v + (0,) * (n - len(v))`: pad a version tuple with zeros up to length `n`. -/
def padTo (v : List Nat) (n : Nat) : List Nat :=
  v ++ List.replicate (n - v.length) 0

/-- Embeds `version_less_than` from `scripts/get_older_rds.py`. -/
def version_less_than (v1 v2 : List Nat) : Bool :=
  let m := max v1.length v2.length
  tupleLt (padTo v1 m) (padTo v2 m)

/-- Equality induced by `version_less_than`'s padding: both tuples agree
once padded to a common length (missing trailing components read as 0). -/
def version_equiv (v1 v2 : List Nat) : Bool :=
  let m := max v1.length v2.length
  decide (padTo v1 m = padTo v2 m)

/-! ### Order lemmas for the tuple comparison -/

theorem tupleLt_irrefl (x : List Nat) : tupleLt x x = false := by
  induction x with
  | nil => rfl
  | cons a as ih => simp [tupleLt, ih]

theorem tupleLt_asymm (x : List Nat) :
    ∀ y, tupleLt x y = true → tupleLt y x = false := by
  induction x with
  | nil =>
    intro y h
    cases y with
    | nil => simp [tupleLt] at h
    | cons b bs => rfl
  | cons a as ih =>
    intro y h
    cases y with
    | nil => simp [tupleLt] at h
    | cons b bs =>
      rcases Nat.lt_trichotomy a b with hab | hab | hab
      · simp only [tupleLt]
        rw [if_neg (by omega), if_pos (by omega)]
      · subst hab
        simp only [tupleLt, lt_irrefl, if_false] at h ⊢
        exact ih bs h
      · simp only [tupleLt] at h
        rw [if_neg (by omega), if_pos (by omega)] at h
        exact absurd h (by simp)

theorem tupleLt_trans (x : List Nat) :
    ∀ y z, tupleLt x y = true → tupleLt y z = true → tupleLt x z = true := by
  induction x with
  | nil =>
    intro y z h1 h2
    cases y with
    | nil => simp [tupleLt] at h1
    | cons b bs =>
      cases z with
      | nil => simp [tupleLt] at h2
      | cons c cs => rfl
  | cons a as ih =>
    intro y z h1 h2
    cases y with
    | nil => simp [tupleLt] at h1
    | cons b bs =>
      cases z with
      | nil => simp [tupleLt] at h2
      | cons c cs =>
        simp only [tupleLt] at h1 h2 ⊢
        rcases Nat.lt_trichotomy a b with hab | hab | hab
        · rcases Nat.lt_trichotomy b c with hbc | hbc | hbc
          · rw [if_pos (by omega)]
          · rw [if_pos (by omega)]
          · rw [if_neg (by omega), if_pos (by omega)] at h2
            exact absurd h2 (by simp)
        · subst hab
          rcases Nat.lt_trichotomy a c with hac | hac | hac
          · rw [if_pos hac]
          · subst hac
            rw [if_neg (by omega), if_neg (by omega)] at h1 h2 ⊢
            exact ih bs cs h1 h2
          · rw [if_neg (by omega), if_pos (by omega)] at h2
            exact absurd h2 (by simp)
        · rw [if_neg (by omega), if_pos (by omega)] at h1
          exact absurd h1 (by simp)

theorem tupleLt_total (x : List Nat) :
    ∀ y, x.length = y.length →
      tupleLt x y = true ∨ tupleLt y x = true ∨ x = y := by
  induction x with
  | nil =>
    intro y h
    cases y with
    | nil => exact Or.inr (Or.inr rfl)
    | cons b bs => simp at h
  | cons a as ih =>
    intro y h
    cases y with
    | nil => simp at h
    | cons b bs =>
      rcases Nat.lt_trichotomy a b with hab | hab | hab
      · exact Or.inl (by simp only [tupleLt]; rw [if_pos (by omega)])
      · subst hab
        rcases ih bs (by simpa using h) with h' | h' | h'
        · exact Or.inl (by simp only [tupleLt]; rw [if_neg (by omega), if_neg (by omega)]; exact h')
        · exact Or.inr (Or.inl (by simp only [tupleLt]; rw [if_neg (by omega), if_neg (by omega)]; exact h'))
        · exact Or.inr (Or.inr (by rw [h']))
      · exact Or.inr (Or.inl (by simp only [tupleLt]; rw [if_pos (by omega)]))

theorem tupleLt_append (z : List Nat) (x : List Nat) :
    ∀ y, x.length = y.length → tupleLt (x ++ z) (y ++ z) = tupleLt x y := by
  induction x with
  | nil =>
    intro y h
    cases y with
    | nil => simpa [tupleLt] using tupleLt_irrefl z
    | cons b bs => simp at h
  | cons a as ih =>
    intro y h
    cases y with
    | nil => simp at h
    | cons b bs =>
      simp only [List.cons_append, tupleLt]
      rcases Nat.lt_trichotomy a b with hab | hab | hab
      · rw [if_pos (by omega), if_pos (by omega)]
      · subst hab
        rw [if_neg (by omega), if_neg (by omega), if_neg (by omega), if_neg (by omega)]
        exact ih bs (by simpa using h)
      · rw [if_neg (by omega), if_pos (by omega), if_neg (by omega), if_pos (by omega)]

theorem padTo_length (v : List Nat) (n : Nat) (h : v.length ≤ n) :
    (padTo v n).length = n := by
  simp [padTo]; omega

theorem padTo_split (v : List Nat) (m n : Nat) (h1 : v.length ≤ m) (h2 : m ≤ n) :
    padTo v n = padTo v m ++ List.replicate (n - m) 0 := by
  simp only [padTo, List.append_assoc]
  rw [← List.replicate_add]
  congr 2
  omega

/-- `version_less_than` is unchanged by padding both arguments to any common
length at least as large as both. -/
theorem version_less_than_pad (v1 v2 : List Nat) (n : Nat)
    (h1 : v1.length ≤ n) (h2 : v2.length ≤ n) :
    version_less_than v1 v2 = tupleLt (padTo v1 n) (padTo v2 n) := by
  simp only [version_less_than]
  rw [padTo_split v1 (max v1.length v2.length) n (le_max_left _ _) (by omega),
      padTo_split v2 (max v1.length v2.length) n (le_max_right _ _) (by omega),
      tupleLt_append]
  rw [padTo_length _ _ (le_max_left _ _), padTo_length _ _ (le_max_right _ _)]

theorem version_less_than_asymm (v1 v2 : List Nat)
    (h : version_less_than v1 v2 = true) : version_less_than v2 v1 = false := by
  rw [version_less_than_pad v1 v2 (max v1.length v2.length) (le_max_left _ _) (le_max_right _ _)] at h
  rw [version_less_than_pad v2 v1 (max v1.length v2.length) (le_max_right _ _) (le_max_left _ _)]
  exact tupleLt_asymm _ _ h

theorem version_less_than_trans (v1 v2 v3 : List Nat)
    (h1 : version_less_than v1 v2 = true) (h2 : version_less_than v2 v3 = true) :
    version_less_than v1 v3 = true := by
  set n := max v1.length (max v2.length v3.length) with hn
  have l1 : v1.length ≤ n := le_max_left _ _
  have l2 : v2.length ≤ n := le_trans (le_max_left _ _) (le_max_right _ _)
  have l3 : v3.length ≤ n := le_trans (le_max_right _ _) (le_max_right _ _)
  rw [version_less_than_pad v1 v2 n l1 l2] at h1
  rw [version_less_than_pad v2 v3 n l2 l3] at h2
  rw [version_less_than_pad v1 v3 n l1 l3]
  exact tupleLt_trans _ _ _ h1 h2

theorem version_less_than_total (v1 v2 : List Nat) :
    version_less_than v1 v2 = true ∨ version_less_than v2 v1 = true ∨
      version_equiv v1 v2 = true := by
  set n := max v1.length v2.length with hn
  have l1 : v1.length ≤ n := le_max_left _ _
  have l2 : v2.length ≤ n := le_max_right _ _
  rcases tupleLt_total (padTo v1 n) (padTo v2 n)
      (by rw [padTo_length _ _ l1, padTo_length _ _ l2]) with h | h | h
  · exact Or.inl (by rw [version_less_than_pad v1 v2 n l1 l2]; exact h)
  · refine Or.inr (Or.inl ?_)
    rw [version_less_than_pad v2 v1 n l2 l1]
    exact h
  · refine Or.inr (Or.inr ?_)
    simp only [version_equiv, ← hn]
    exact decide_eq_true h

/-- Claim C2: comparing `parse_engine_version` results with
`version_less_than` is a strict total order modulo zero-padding equality
(asymmetric, transitive, total), consistent with numeric dotted-version
semantics: `15.8 < 15.10` holds, `15.8 < 15.1` fails, and `15` compares
equal to `15.0` (neither side is less, and they are order-equivalent). -/
theorem C2_version_order_total :
    (∀ a b : List Char,
        version_less_than (parse_engine_version a) (parse_engine_version b) = true →
        version_less_than (parse_engine_version b) (parse_engine_version a) = false)
  ∧ (∀ a b c : List Char,
        version_less_than (parse_engine_version a) (parse_engine_version b) = true →
        version_less_than (parse_engine_version b) (parse_engine_version c) = true →
        version_less_than (parse_engine_version a) (parse_engine_version c) = true)
  ∧ (∀ a b : List Char,
        version_less_than (parse_engine_version a) (parse_engine_version b) = true ∨
        version_less_than (parse_engine_version b) (parse_engine_version a) = true ∨
        version_equiv (parse_engine_version a) (parse_engine_version b) = true)
  ∧ version_less_than (parse_engine_version "15.8".data) (parse_engine_version "15.10".data) = true
  ∧ version_less_than (parse_engine_version "15.8".data) (parse_engine_version "15.1".data) = false
  ∧ version_less_than (parse_engine_version "15".data) (parse_engine_version "15.0".data) = false
  ∧ version_less_than (parse_engine_version "15.0".data) (parse_engine_version "15".data) = false
  ∧ version_equiv (parse_engine_version "15".data) (parse_engine_version "15.0".data) = true := by
  refine ⟨fun a b => version_less_than_asymm _ _,
          fun a b c => version_less_than_trans _ _ _,
          fun a b => version_less_than_total _ _,
          by decide, by decide, by decide, by decide, by decide⟩

/-- Witness for C2, applying the order theorem at concrete versions:
transitivity chains `14 < 15.8 < 15.10` into `14 < 15.10`. -/
theorem C2_version_order_total_witness :
    version_less_than (parse_engine_version "14".data) (parse_engine_version "15.10".data) = true :=
  C2_version_order_total.2.1 "14".data "15.8".data "15.10".data (by decide) (by decide)

/-- Claim C3 (refuted; the code contradicts its own docstring): a fully
non-numeric version string parses to the empty tuple, which padded with
zeros sorts before — not after — every non-zero numeric version;
`version_less_than` places `"abc"` strictly below `"15.8"`, while the
docstring of `parse_engine_version` promises a high sentinel value that
sorts last. -/
theorem C3_nonnumeric_sorts_first :
    parse_engine_version "abc".data = []
  ∧ version_less_than (parse_engine_version "abc".data) (parse_engine_version "15.8".data) = true
  ∧ version_less_than (parse_engine_version "15.8".data) (parse_engine_version "abc".data) = false := by
  refine ⟨by decide, by decide, by decide⟩

/-! ## Switchover polling loop (`scripts/rds_upgrade_tool.py`, `wait_for_bg_switchover`)

The Python loop reads `time.monotonic()` at entry and loops while the
elapsed time is below `timeout`; each iteration issues one
`check_blue_green_deployment_status` call (whose result is a status string
or `None` on provider error), returns early on `'SWITCHOVER_COMPLETED'` and
otherwise sleeps for `interval` seconds.  After the loop it returns
`switchover_status`, a variable first assigned inside the loop body.

The model idealises timing: a status check is instantaneous and each
`time.sleep(interval)` advances the clock by exactly `interval`, so the
k-th check (0-based) happens at elapsed time `k * interval`.  `timeout` is
an `Int` so that non-positive timeouts are representable.  A run records
the returned value (`none` models the `NameError` raised when the final
`return` reads the never-assigned variable), the number of status checks
issued, and the elapsed time at return.  The `fuel` argument of `waitAux`
is an artifact bounding the recursion; it is chosen large enough
(`timeout.toNat + 1`) that it is never exhausted when `interval ≥ 1`. -/

structure WaitRun where
  result : Option (Option String)
  checks : Nat
  elapsed : Nat
deriving DecidableEq

def waitAux (st : Nat → Option String) (timeout : Int) (interval : Nat) :
    Nat → Nat → Option (Option String) → WaitRun
  | 0, k, last => ⟨last, k, k * interval⟩
  | fuel + 1, k, last =>
    if ((k * interval : Nat) : Int) < timeout then
      let s := st k
      if s = some "SWITCHOVER_COMPLETED" then ⟨some s, k + 1, k * interval⟩
      else waitAux st timeout interval fuel (k + 1) (some s)
    else ⟨last, k, k * interval⟩

/-- Embeds `wait_for_bg_switchover`: `st k` is the status observed by the
k-th `check_blue_green_deployment_status` call. -/
def wait_for_bg_switchover (st : Nat → Option String) (timeout : Int) (interval : Nat) : WaitRun :=
  waitAux st timeout interval (timeout.toNat + 1) 0 none

theorem waitAux_checks_ge (st : Nat → Option String) (timeout : Int) (interval : Nat) :
    ∀ fuel k last, k ≤ (waitAux st timeout interval fuel k last).checks := by
  intro fuel
  induction fuel with
  | zero => intro k last; simp [waitAux]
  | succ f ih =>
    intro k last
    simp only [waitAux]
    split
    · split
      · simp
      · exact le_trans (Nat.le_succ k) (ih (k + 1) _)
    · simp

theorem waitAux_checks_before_timeout (st : Nat → Option String) (timeout : Int) (interval : Nat) :
    ∀ fuel k last j, k ≤ j → j < (waitAux st timeout interval fuel k last).checks →
      ((j * interval : Nat) : Int) < timeout := by
  intro fuel
  induction fuel with
  | zero => intro k last j h1 h2; simp [waitAux] at h2; omega
  | succ f ih =>
    intro k last j h1 h2
    simp only [waitAux] at h2
    split at h2
    · rename_i hg
      split at h2
      · simp at h2
        have : j = k := by omega
        exact this ▸ hg
      · rcases Nat.lt_or_ge j (k + 1) with hj | hj
        · have : j = k := by omega
          exact this ▸ hg
        · exact ih (k + 1) _ j hj h2
    · simp at h2; omega

theorem waitAux_elapsed_bound (st : Nat → Option String) (timeout : Int) (interval : Nat)
    (ht : 0 < timeout) :
    ∀ fuel k last, (k = 0 ∨ (((k - 1) * interval : Nat) : Int) < timeout) →
      ((waitAux st timeout interval fuel k last).elapsed : Int) < timeout + interval := by
  have step : ∀ k : Nat, (k * interval : Nat) ≤ (k - 1) * interval + interval := by
    intro k
    rcases Nat.eq_zero_or_pos k with h | h
    · simp [h]
    · have : k * interval = (k - 1) * interval + interval := by
        rw [Nat.sub_one_mul]
        have : interval ≤ k * interval := Nat.le_mul_of_pos_left interval h
        omega
      omega
  intro fuel
  induction fuel with
  | zero =>
    intro k last hk
    show ((k * interval : Nat) : Int) < timeout + interval
    rcases hk with hk | hk
    · subst hk; simp only [Nat.zero_mul, Nat.cast_zero]; omega
    · have := step k; omega
  | succ f ih =>
    intro k last hk
    simp only [waitAux]
    split
    · rename_i hg
      split
      · show ((k * interval : Nat) : Int) < timeout + interval
        omega
      · exact ih (k + 1) _ (Or.inr (by simpa using hg))
    · rename_i hg
      show ((k * interval : Nat) : Int) < timeout + interval
      rcases hk with hk | hk
      · subst hk; simp only [Nat.zero_mul, Nat.cast_zero]; omega
      · have := step k; omega

/-- If the j-th check is actually performed during the run and observes
`'SWITCHOVER_COMPLETED'`, the loop returns that status at that very check:
the run performs exactly j+1 checks.  This holds for every fuel, timeout
and interval. -/
theorem waitAux_observed_completed (st : Nat → Option String) (timeout : Int) (interval : Nat) :
    ∀ fuel k last j, k ≤ j → j < (waitAux st timeout interval fuel k last).checks →
      st j = some "SWITCHOVER_COMPLETED" →
      (waitAux st timeout interval fuel k last).result = some (some "SWITCHOVER_COMPLETED") ∧
      (waitAux st timeout interval fuel k last).checks = j + 1 := by
  intro fuel
  induction fuel with
  | zero =>
    intro k last j h1 h2 h3
    simp [waitAux] at h2
    omega
  | succ f ih =>
    intro k last j h1 h2 h3
    by_cases hg : ((k * interval : Nat) : Int) < timeout
    · by_cases hck : st k = some "SWITCHOVER_COMPLETED"
      · simp only [waitAux, if_pos hg, if_pos hck] at h2 ⊢
        have h2' : j < k + 1 := h2
        have hj : j = k := by omega
        subst hj
        exact ⟨by rw [hck], rfl⟩
      · simp only [waitAux, if_pos hg, if_neg hck] at h2 ⊢
        have hjk : j ≠ k := by
          intro he
          rw [he] at h3
          exact hck h3
        exact ih (k + 1) (some (st k)) j (by omega) h2 h3
    · simp only [waitAux, if_neg hg] at h2
      have h2' : j < k := h2
      omega

theorem waitAux_no_completed (st : Nat → Option String) (timeout : Int) (interval : Nat)
    (hnc : ∀ j, st j ≠ some "SWITCHOVER_COMPLETED") :
    ∀ fuel k, 1 ≤ k →
      (waitAux st timeout interval fuel k (some (st (k - 1)))).result =
        some (st ((waitAux st timeout interval fuel k (some (st (k - 1)))).checks - 1)) := by
  intro fuel
  induction fuel with
  | zero => intro k hk; simp [waitAux]
  | succ f ih =>
    intro k hk
    simp only [waitAux]
    split
    · rw [if_neg (hnc k)]
      have : st k = st ((k + 1) - 1) := by simp
      rw [this]
      exact ih (k + 1) (by omega)
    · simp

/-- The returned value is always assigned once the loop body has run at
least once: starting from a `some` last status, the result is a `some`. -/
theorem waitAux_result_some (st : Nat → Option String) (timeout : Int) (interval : Nat) :
    ∀ fuel k s, (waitAux st timeout interval fuel k (some s)).result.isSome = true := by
  intro fuel
  induction fuel with
  | zero => intro k s; simp [waitAux]
  | succ f ih =>
    intro k s
    simp only [waitAux]
    split
    · split
      · simp
      · exact ih (k + 1) _
    · simp

/-- Claim C9: the wait loop is total exactly when `timeout > 0`.  For
`timeout ≤ 0` the loop body never runs, no status check is issued, and the
final `return switchover_status` reads an unassigned variable (modelled as
result `none`); for `timeout > 0` (and a positive poll interval, under the
model's idealised timing) the variable is assigned before every return. -/
theorem C9_wait_total_iff_positive_timeout :
    (∀ (st : Nat → Option String) (interval : Nat) (timeout : Int), timeout ≤ 0 →
      wait_for_bg_switchover st timeout interval = ⟨none, 0, 0⟩)
  ∧ (∀ (st : Nat → Option String) (interval : Nat) (timeout : Int), 0 < timeout →
      (wait_for_bg_switchover st timeout interval).result.isSome = true) := by
  constructor
  · intro st interval timeout ht
    have h0 : timeout.toNat = 0 := Int.toNat_of_nonpos ht
    simp only [wait_for_bg_switchover, h0, waitAux]
    rw [if_neg (by simpa using ht)]
    simp
  · intro st interval timeout ht
    simp only [wait_for_bg_switchover, waitAux]
    rw [if_pos (by simpa using ht)]
    split
    · simp
    · exact waitAux_result_some st timeout interval _ 1 _

/-- Status stream observing `'AVAILABLE'` on every check. -/
def constAvailable : Nat → Option String := fun _ => some "AVAILABLE"

/-- Witness for C9 at concrete inputs: with `timeout = -5` the loop issues
no check and the unassigned-variable branch is reached; with the default
configuration `timeout = 300`, `interval = 30` the result is assigned. -/
theorem C9_wait_total_iff_positive_timeout_witness :
    wait_for_bg_switchover constAvailable (-5) 30 = ⟨none, 0, 0⟩
  ∧ (wait_for_bg_switchover constAvailable 300 30).result.isSome = true :=
  ⟨C9_wait_total_iff_positive_timeout.1 constAvailable 30 (-5) (by omega),
   C9_wait_total_iff_positive_timeout.2 constAvailable 30 300 (by omega)⟩

/-- Claim C4 as stated is false on two legs.  Configured with
`timeout = 0` the loop issues zero status checks (not "at least one") and
returns no last observed status (the unassigned-variable error branch is
reached).  And configured with `timeout = 299`, `interval = 30` on a
stream that never completes, the loop does not exit at or before the
configured total timeout: the guard still passes at elapsed 270, so the
run ends only at elapsed 300 > 299. -/
theorem C4_wait_loop_counterexample :
    (wait_for_bg_switchover constAvailable 0 30 = ⟨none, 0, 0⟩
     ∧ ¬ 1 ≤ (wait_for_bg_switchover constAvailable 0 30).checks)
  ∧ (¬ ((wait_for_bg_switchover constAvailable 299 30).elapsed : Int) ≤ 299
     ∧ (wait_for_bg_switchover constAvailable 299 30).elapsed = 300) := by
  exact ⟨⟨rfl, by decide⟩, ⟨by decide, by decide⟩⟩

/-- Claim C4, amended exactly as the counterexamples force (and under the
model's idealised timing: instantaneous status checks, exact sleeps).
For every `timeout > 0` (forced by the `timeout = 0` leg) and every poll
interval: the loop issues at least one status check; every check it
issues happens strictly before the timeout elapses, so the loop stops
within one poll interval past the timeout (the original "at or before the
timeout" is refuted by the `timeout = 299`, `interval = 30` leg); it
returns `SWITCHOVER_COMPLETED` at the first check that observes it; and
when that status is never observed it returns the last observed status
(including a `None` lookup result) rather than raising. -/
theorem C4_wait_loop_bounds (st : Nat → Option String) (timeout : Int) (interval : Nat)
    (ht : 0 < timeout) :
    1 ≤ (wait_for_bg_switchover st timeout interval).checks
  ∧ (∀ k, k < (wait_for_bg_switchover st timeout interval).checks →
      ((k * interval : Nat) : Int) < timeout)
  ∧ (((wait_for_bg_switchover st timeout interval).elapsed : Int) < timeout + interval)
  ∧ (∀ k, k < (wait_for_bg_switchover st timeout interval).checks →
      st k = some "SWITCHOVER_COMPLETED" →
      (wait_for_bg_switchover st timeout interval).result =
        some (some "SWITCHOVER_COMPLETED") ∧
      (wait_for_bg_switchover st timeout interval).checks = k + 1)
  ∧ ((∀ j, st j ≠ some "SWITCHOVER_COMPLETED") →
      (wait_for_bg_switchover st timeout interval).result =
        some (st ((wait_for_bg_switchover st timeout interval).checks - 1))) := by
  have guard0 : ((0 * interval : Nat) : Int) < timeout := by simpa using ht
  refine ⟨?_, ?_, ?_, ?_, ?_⟩
  · simp only [wait_for_bg_switchover, waitAux]
    rw [if_pos guard0]
    split
    · simp
    · exact waitAux_checks_ge st timeout interval _ 1 _
  · intro k hk
    exact waitAux_checks_before_timeout st timeout interval _ 0 none k (Nat.zero_le k) hk
  · exact waitAux_elapsed_bound st timeout interval ht _ 0 none (Or.inl rfl)
  · intro k hk hck
    exact waitAux_observed_completed st timeout interval _ 0 none k (Nat.zero_le k) hk hck
  · intro hnc
    simp only [wait_for_bg_switchover, waitAux]
    rw [if_pos guard0, if_neg (hnc 0)]
    exact waitAux_no_completed st timeout interval hnc _ 1 (by omega)

/-- Witness for the amended C4 at the default configuration
(`timeout = 300`, `interval = 30`) against a stream that never reaches
`SWITCHOVER_COMPLETED`. -/
theorem C4_wait_loop_bounds_witness :
    1 ≤ (wait_for_bg_switchover constAvailable 300 30).checks
  ∧ (wait_for_bg_switchover constAvailable 300 30).result = some (some "AVAILABLE") := by
  obtain ⟨h1, h2, h3, h4, h5⟩ := C4_wait_loop_bounds constAvailable 300 30 (by omega)
  refine ⟨h1, ?_⟩
  have hnc : ∀ j, constAvailable j ≠ some "SWITCHOVER_COMPLETED" := by
    intro j
    simp [constAvailable]
  exact h5 hnc

/-! ## Blue/green deployment name (`scripts/rds_upgrade_tool.py`, `initiate_blue_green_upgrade`)

The creation call names the deployment
`f"bg-deployment-{identifier[:max_length]}"` with
`max_length = 60 - len("bg-deployment-")`. -/

/-- The fixed head of every deployment name (14 characters). -/
def bgNameHead : List Char := "bg-deployment-".data

/-- `max_length = 60 - len("bg-deployment-")`. -/
def bgMaxIdLen : Nat := 60 - bgNameHead.length

/-- Embeds the deployment-name computation of `initiate_blue_green_upgrade`. -/
def blue_green_deployment_name (identifier : List Char) : List Char :=
  bgNameHead ++ identifier.take bgMaxIdLen

/-- Claim C7: the deployment name is the fixed head `"bg-deployment-"`
followed by the identifier truncated so the whole name never exceeds 60
characters, and identifiers of at most 46 characters are kept whole.  (The
name is a pure function of the identifier, so determinism is immediate.) -/
theorem C7_deployment_name (identifier : List Char) :
    (blue_green_deployment_name identifier).length ≤ 60
  ∧ (blue_green_deployment_name identifier).take 14 = "bg-deployment-".data
  ∧ (identifier.length ≤ 46 →
      blue_green_deployment_name identifier = "bg-deployment-".data ++ identifier) := by
  have hhead : bgNameHead.length = 14 := rfl
  have hmax : bgMaxIdLen = 46 := rfl
  refine ⟨?_, ?_, ?_⟩
  · simp only [blue_green_deployment_name, List.length_append, List.length_take, hhead, hmax]
    omega
  · have h14 : (14 : Nat) = bgNameHead.length := rfl
    rw [blue_green_deployment_name, h14, List.take_left]
    rfl
  · intro h
    rw [blue_green_deployment_name, hmax, List.take_of_length_le h]
    rfl

/-- Witness for C7 at a short identifier: `"mydb"` is kept whole. -/
theorem C7_deployment_name_witness :
    "mydb".data.length ≤ 46
  ∧ blue_green_deployment_name "mydb".data = "bg-deployment-".data ++ "mydb".data :=
  ⟨by decide, (C7_deployment_name "mydb".data).2.2 (by decide)⟩

/-! ## Cleanup stage (`scripts/rds_upgrade_tool.py`, `delete_database_instance_or_cluster`) -/

inductive DelCall
  | modifyInstance (id : String) (deletionProtection : Bool)
  | modifyCluster (id : String) (deletionProtection : Bool)
  | describeMembers (cluster : String)
  | deleteInstance (id : String) (skipFinalSnapshot deleteAutomatedBackups : Bool)
  | deleteCluster (id : String) (skipFinalSnapshot deleteAutomatedBackups : Bool)
deriving DecidableEq

/-- Embeds `delete_database_instance_or_cluster` as the sequence of provider
calls it issues when every call succeeds; `members` is the provider's answer
to the `db-cluster-id`-filtered describe call.  A provider error aborts the
Python function at the failing call (the `except` clauses return `False`),
so the calls of any actual execution form a prefix (`List.take n`) of this
sequence. -/
def delete_database_instance_or_cluster (instance_type : String) (database_name : String)
    (members : List String) : List DelCall :=
  if instance_type = "RDS" then
    [DelCall.modifyInstance database_name false,
     DelCall.deleteInstance database_name true false]
  else if instance_type = "Aurora" then
    [DelCall.modifyCluster database_name false,
     DelCall.describeMembers database_name]
    ++ members.map (fun m => DelCall.deleteInstance m true false)
    ++ [DelCall.deleteCluster database_name true false]
  else []

/-- Claim C5: in the Aurora cleanup, within every execution prefix of the
call sequence, the cluster delete appears only after a delete has been
issued for every member instance, and every delete call (instance or
cluster) skips the final snapshot and retains automated backups
(`DeleteAutomatedBackups=False`). -/
theorem C5_aurora_delete_order (database_name : String) (members : List String) (n : Nat) :
    (∀ c s b, DelCall.deleteCluster c s b ∈
        (delete_database_instance_or_cluster "Aurora" database_name members).take n →
      ∀ m ∈ members, DelCall.deleteInstance m true false ∈
        (delete_database_instance_or_cluster "Aurora" database_name members).take n)
  ∧ (∀ id s b, DelCall.deleteInstance id s b ∈
        delete_database_instance_or_cluster "Aurora" database_name members →
      s = true ∧ b = false)
  ∧ (∀ c s b, DelCall.deleteCluster c s b ∈
        delete_database_instance_or_cluster "Aurora" database_name members →
      s = true ∧ b = false) := by
  set A : List DelCall :=
    [DelCall.modifyCluster database_name false, DelCall.describeMembers database_name]
    ++ members.map (fun m => DelCall.deleteInstance m true false) with hA
  have hL : delete_database_instance_or_cluster "Aurora" database_name members =
      A ++ [DelCall.deleteCluster database_name true false] := by
    simp [delete_database_instance_or_cluster, hA]
  have hnA : ∀ c s b, DelCall.deleteCluster c s b ∉ A := by
    intro c s b h
    simp [hA] at h
  refine ⟨?_, ?_, ?_⟩
  · intro c s b hmem m hm
    have hn : A.length + 1 ≤ n := by
      by_contra hc
      have hle : n ≤ A.length := by omega
      rw [hL, List.take_append_of_le_length hle] at hmem
      exact hnA c s b (List.mem_of_mem_take hmem)
    have htake : (delete_database_instance_or_cluster "Aurora" database_name members).take n =
        delete_database_instance_or_cluster "Aurora" database_name members := by
      apply List.take_of_length_le
      rw [hL]
      simp
      omega
    rw [htake, hL]
    exact List.mem_append_left _ (List.mem_append_right _ (List.mem_map.mpr ⟨m, hm, rfl⟩))
  · intro id s b h
    rw [hL] at h
    simp [hA] at h
    obtain ⟨m, _, _, hs, hb⟩ := h
    exact ⟨hs, hb⟩
  · intro c s b h
    rw [hL] at h
    simp [hA] at h
    exact ⟨h.2.1, h.2.2⟩

/-- Witness for C5 at a two-member cluster with the full sequence exposed
(`n = 5` covers all five calls, including the final cluster delete). -/
theorem C5_aurora_delete_order_witness :
    DelCall.deleteInstance "inst-a" true false ∈
      (delete_database_instance_or_cluster "Aurora" "mycluster" ["inst-a", "inst-b"]).take 5 :=
  (C5_aurora_delete_order "mycluster" ["inst-a", "inst-b"] 5).1
    "mycluster" true false (by decide) "inst-a" (by decide)

/-! ## Blue/green deployment lookup (`scripts/rds_upgrade_tool.py`,
`get_blue_green_deployment_identifier`)

The Python function lists all blue/green deployments and returns the
`BlueGreenDeploymentIdentifier` of the first whose `Source` or `Target`
ARN contains the instance identifier as a substring; it returns `None`
when nothing matches or when the listing call raises. -/

structure BGDep where
  source : List Char
  target : List Char
  bgId : String
deriving DecidableEq

/-- The `for` loop of `get_blue_green_deployment_identifier`. -/
def searchBG : List BGDep → List Char → Option String
  | [], _ => none
  | d :: rest, instId =>
    if pyIn instId d.source || pyIn instId d.target then some d.bgId
    else searchBG rest instId

/-- Embeds `get_blue_green_deployment_identifier`: `listing` is the
provider response, with `none` modelling the describe call raising (the
`except` branch returns `None`). -/
def get_blue_green_deployment_identifier (listing : Option (List BGDep))
    (instance_identifier : List Char) : Option String :=
  match listing with
  | none => none
  | some deps => searchBG deps instance_identifier

/-- The resource name embedded in an ARN, as extracted by
`delete_blue_green_deployment`: `arn.split(':')[-1].split('/')[-1]`. -/
def arnResourceName (arn : List Char) : List Char :=
  (splitOnC '/' ((splitOnC ':' arn).getLastD [])).getLastD []

theorem searchBG_eq_find (instId : List Char) :
    ∀ deps : List BGDep, searchBG deps instId =
      (deps.find? (fun d => pyIn instId d.source || pyIn instId d.target)).map BGDep.bgId := by
  intro deps
  induction deps with
  | nil => rfl
  | cons d rest ih =>
    by_cases h : (pyIn instId d.source || pyIn instId d.target) = true
    · simp [searchBG, List.find?_cons, h]
    · simp only [searchBG, List.find?_cons]
      rw [if_neg (by simpa using h)]
      simp only [Bool.not_eq_true] at h
      rw [h]
      exact ih

/-- Claim C10: the lookup returns the identifier of the first listed
deployment whose source or target ARN contains the instance identifier as
a substring, `none` when nothing matches or the listing call fails; and
because the match is bare substring containment, an identifier that is a
substring of another resource's ARN can match that other resource's
deployment, shown here concretely: looking up `"mydb"` returns the
deployment whose source is the ARN of the distinct resource
`"mydb-replica"`. -/
theorem C10_bg_lookup_substring (deps : List BGDep) (instId : List Char) :
    get_blue_green_deployment_identifier (some deps) instId =
      (deps.find? (fun d => pyIn instId d.source || pyIn instId d.target)).map BGDep.bgId
  ∧ get_blue_green_deployment_identifier none instId = none
  ∧ (get_blue_green_deployment_identifier
        (some [⟨"arn:aws:rds:us-east-1:123456789012:db:mydb-replica".data,
               "arn:aws:rds:us-east-1:123456789012:db:mydb-replica-green-abc".data,
               "bgd-0123456789"⟩]) "mydb".data = some "bgd-0123456789"
     ∧ arnResourceName "arn:aws:rds:us-east-1:123456789012:db:mydb-replica".data =
         "mydb-replica".data
     ∧ "mydb-replica".data ≠ "mydb".data) :=
  ⟨searchBG_eq_find instId deps, rfl, by decide, by decide, by decide⟩

/-! ## Parameter-group migration (`scripts/major_pg_upgrade_tool.py`)

`handle_parameter_groups_upgrade` decides a major upgrade by comparing the
integer first dot-component of the two version strings, and on the major
branch creates a parameter group named and family-tagged for the target
major version, reads the source group's parameters, and applies the
user-sourced ones with `ApplyMethod='pending-reboot'` (a modify call is
issued only when the formatted list is non-empty).  The model records the
parameter-group provider calls issued after `get_parameter_groups` has
resolved `cluster_pg` and `instance_pg` (that resolver only performs
describe reads and no parameter-group creation or modification);
`clusterParams` and `instanceParams` are the parameters the provider
reports for the respective source groups. -/

structure PGParam where
  name : String
  value : String
  source : String
deriving DecidableEq

structure AppliedParam where
  parameterName : String
  parameterValue : String
  applyMethod : String
deriving DecidableEq

inductive PGCall
  | describeClusterParams (pg : Option String)
  | describeInstanceParams (pg : Option String)
  | createClusterPG (name : String) (family : String)
  | createInstancePG (name : String) (family : String)
  | modifyClusterPG (name : String) (params : List AppliedParam)
  | modifyInstancePG (name : String) (params : List AppliedParam)
deriving DecidableEq

/-- The filter of `get_user_defined_cluster_parameters` and
`get_user_defined_instance_parameters`: keep parameters whose `Source`
is `'user'`. -/
def user_params_of (params : List PGParam) : List PGParam :=
  params.filter (fun p => p.source == "user")

/-- The reformatting done by `apply_cluster_parameters` and
`apply_instance_parameters`: name and value copied, apply method fixed to
`'pending-reboot'`. -/
def formatted_params (params : List PGParam) : List AppliedParam :=
  params.map (fun p => ⟨p.name, p.value, "pending-reboot"⟩)

/-- Embeds `apply_cluster_parameters`: modify only if the list is non-empty. -/
def apply_cluster_parameters (pg : String) (parameters : List PGParam) : List PGCall :=
  if (formatted_params parameters).isEmpty then []
  else [PGCall.modifyClusterPG pg (formatted_params parameters)]

/-- Embeds `apply_instance_parameters`: modify only if the list is non-empty. -/
def apply_instance_parameters (pg : String) (parameters : List PGParam) : List PGCall :=
  if (formatted_params parameters).isEmpty then []
  else [PGCall.modifyInstancePG pg (formatted_params parameters)]

/-- `int(version.split('.')[0])`: the integer major component. -/
def majorOf (v : List Char) : Nat :=
  strToNat ((splitOnC '.' v).headD [])

/-- Python truthiness of an optional string (`None` and `""` are falsy). -/
def optTruthy : Option String → Bool
  | none => false
  | some s => !(s == "")

/-- Embeds `handle_parameter_groups_upgrade` as the sequence of
parameter-group calls it issues. -/
def handle_parameter_groups_upgrade (identifier : String)
    (current_version target_version : List Char) (instance_type : String)
    (cluster_pg instance_pg : Option String)
    (clusterParams instanceParams : List PGParam) : List PGCall :=
  if majorOf target_version > majorOf current_version then
    if instance_type = "Aurora" then
      let pgfamily := "aurora-postgresql" ++ toString (majorOf target_version)
      ([PGCall.createClusterPG (identifier ++ "-cluster-pg" ++ pgfamily) pgfamily,
        PGCall.describeClusterParams cluster_pg]
       ++ apply_cluster_parameters (identifier ++ "-cluster-pg" ++ pgfamily)
            (user_params_of clusterParams))
      ++ (if optTruthy instance_pg then
            [PGCall.createInstancePG (identifier ++ "-instance-pg" ++ pgfamily) pgfamily,
             PGCall.describeInstanceParams instance_pg]
            ++ apply_instance_parameters (identifier ++ "-instance-pg" ++ pgfamily)
                 (user_params_of instanceParams)
          else [])
    else if instance_type = "RDS" then
      let pgfamily := "postgres" ++ toString (majorOf target_version)
      [PGCall.createInstancePG (identifier ++ "-instance-pg" ++ pgfamily) pgfamily,
       PGCall.describeInstanceParams instance_pg]
      ++ apply_instance_parameters (identifier ++ "-instance-pg" ++ pgfamily)
           (user_params_of instanceParams)
    else []
  else []

theorem mem_apply_cluster_parameters {c : PGCall} {pg : String} {ps : List PGParam}
    (h : c ∈ apply_cluster_parameters pg ps) :
    c = PGCall.modifyClusterPG pg (formatted_params ps) ∧ formatted_params ps ≠ [] := by
  unfold apply_cluster_parameters at h
  split at h
  · simp at h
  · rename_i hne
    simp at h
    refine ⟨h, ?_⟩
    simpa using hne

theorem mem_apply_instance_parameters {c : PGCall} {pg : String} {ps : List PGParam}
    (h : c ∈ apply_instance_parameters pg ps) :
    c = PGCall.modifyInstancePG pg (formatted_params ps) ∧ formatted_params ps ≠ [] := by
  unfold apply_instance_parameters at h
  split at h
  · simp at h
  · rename_i hne
    simp at h
    refine ⟨h, ?_⟩
    simpa using hne

/-- Claim C8: the migration takes the major branch exactly when the integer
major component of the target exceeds that of the current version; on that
branch (for a recognised instance type) it creates parameter groups
family-tagged for the target major version and issues modify calls that
apply exactly the user-sourced parameters of the source group with
pending-reboot effect; on the minor branch it issues no parameter-group
creation or modification calls at all.  Concretely, 13.4 to 15.8 is major
and 15.2 to 15.8 is minor. -/
theorem C8_parameter_group_migration (identifier : String)
    (current_version target_version : List Char) (instance_type : String)
    (cluster_pg instance_pg : Option String)
    (clusterParams instanceParams : List PGParam) :
    (instance_type = "Aurora" ∨ instance_type = "RDS" →
      ((∃ nm fam, PGCall.createClusterPG nm fam ∈ handle_parameter_groups_upgrade identifier
            current_version target_version instance_type cluster_pg instance_pg
            clusterParams instanceParams
          ∨ PGCall.createInstancePG nm fam ∈ handle_parameter_groups_upgrade identifier
            current_version target_version instance_type cluster_pg instance_pg
            clusterParams instanceParams) ↔
        majorOf target_version > majorOf current_version))
  ∧ (¬ majorOf target_version > majorOf current_version →
      handle_parameter_groups_upgrade identifier current_version target_version instance_type
        cluster_pg instance_pg clusterParams instanceParams = [])
  ∧ (∀ nm fam, PGCall.createClusterPG nm fam ∈ handle_parameter_groups_upgrade identifier
        current_version target_version instance_type cluster_pg instance_pg
        clusterParams instanceParams →
      fam = "aurora-postgresql" ++ toString (majorOf target_version))
  ∧ (∀ nm fam, PGCall.createInstancePG nm fam ∈ handle_parameter_groups_upgrade identifier
        current_version target_version instance_type cluster_pg instance_pg
        clusterParams instanceParams →
      fam = (if instance_type = "Aurora" then "aurora-postgresql" else "postgres") ++
        toString (majorOf target_version))
  ∧ (∀ nm ps, PGCall.modifyClusterPG nm ps ∈ handle_parameter_groups_upgrade identifier
        current_version target_version instance_type cluster_pg instance_pg
        clusterParams instanceParams →
      ps = formatted_params (user_params_of clusterParams) ∧ ps ≠ [])
  ∧ (∀ nm ps, PGCall.modifyInstancePG nm ps ∈ handle_parameter_groups_upgrade identifier
        current_version target_version instance_type cluster_pg instance_pg
        clusterParams instanceParams →
      ps = formatted_params (user_params_of instanceParams) ∧ ps ≠ [])
  ∧ (∀ (ps0 : List PGParam) (q : AppliedParam), q ∈ formatted_params (user_params_of ps0) →
      q.applyMethod = "pending-reboot" ∧
        ∃ p, p ∈ ps0 ∧ p.source = "user" ∧
          q.parameterName = p.name ∧ q.parameterValue = p.value)
  ∧ majorOf "15.8".data > majorOf "13.4".data
  ∧ ¬ majorOf "15.8".data > majorOf "15.2".data := by
  refine ⟨?_, ?_, ?_, ?_, ?_, ?_, ?_, by decide, by decide⟩
  · intro hty
    constructor
    · rintro ⟨nm, fam, h | h⟩ <;>
        · by_contra hM
          simp [handle_parameter_groups_upgrade, hM] at h
    · intro hM
      rcases hty with hA | hR
      · refine ⟨identifier ++ "-cluster-pg" ++ ("aurora-postgresql" ++ toString (majorOf target_version)),
          "aurora-postgresql" ++ toString (majorOf target_version), Or.inl ?_⟩
        simp [handle_parameter_groups_upgrade, hM, hA]
      · refine ⟨identifier ++ "-instance-pg" ++ ("postgres" ++ toString (majorOf target_version)),
          "postgres" ++ toString (majorOf target_version), Or.inr ?_⟩
        by_cases hA : instance_type = "Aurora"
        · rw [hA] at hR
          simp at hR
        · simp [handle_parameter_groups_upgrade, hM, hA, hR]
  · intro hM
    simp [handle_parameter_groups_upgrade, hM]
  · intro nm fam hmem
    by_cases hM : majorOf target_version > majorOf current_version
    · by_cases hEC : (formatted_params (user_params_of clusterParams)).isEmpty
        <;> by_cases hEI : (formatted_params (user_params_of instanceParams)).isEmpty
        <;> by_cases hT : optTruthy instance_pg
        <;> by_cases hA : instance_type = "Aurora"
        <;> by_cases hR : instance_type = "RDS"
        <;> simp_all [handle_parameter_groups_upgrade, apply_cluster_parameters,
              apply_instance_parameters]
    · simp_all [handle_parameter_groups_upgrade]
  · intro nm fam hmem
    by_cases hM : majorOf target_version > majorOf current_version
    · by_cases hEC : (formatted_params (user_params_of clusterParams)).isEmpty
        <;> by_cases hEI : (formatted_params (user_params_of instanceParams)).isEmpty
        <;> by_cases hT : optTruthy instance_pg
        <;> by_cases hA : instance_type = "Aurora"
        <;> by_cases hR : instance_type = "RDS"
        <;> simp_all [handle_parameter_groups_upgrade, apply_cluster_parameters,
              apply_instance_parameters]
    · simp_all [handle_parameter_groups_upgrade]
  · intro nm ps hmem
    by_cases hM : majorOf target_version > majorOf current_version
    · by_cases hEC : (formatted_params (user_params_of clusterParams)).isEmpty
        <;> by_cases hEI : (formatted_params (user_params_of instanceParams)).isEmpty
        <;> by_cases hT : optTruthy instance_pg
        <;> by_cases hA : instance_type = "Aurora"
        <;> by_cases hR : instance_type = "RDS"
        <;> simp_all [handle_parameter_groups_upgrade, apply_cluster_parameters,
              apply_instance_parameters]
    · simp_all [handle_parameter_groups_upgrade]
  · intro nm ps hmem
    by_cases hM : majorOf target_version > majorOf current_version
    · by_cases hEC : (formatted_params (user_params_of clusterParams)).isEmpty
        <;> by_cases hEI : (formatted_params (user_params_of instanceParams)).isEmpty
        <;> by_cases hT : optTruthy instance_pg
        <;> by_cases hA : instance_type = "Aurora"
        <;> by_cases hR : instance_type = "RDS"
        <;> simp_all [handle_parameter_groups_upgrade, apply_cluster_parameters,
              apply_instance_parameters]
    · simp_all [handle_parameter_groups_upgrade]
  · intro ps0 q hq
    simp only [formatted_params, user_params_of, List.mem_map, List.mem_filter] at hq
    obtain ⟨p, ⟨hp, hps⟩, rfl⟩ := hq
    exact ⟨rfl, p, hp, by simpa using hps, rfl, rfl⟩

/-- Witness for C8: the cluster scenario 13.4 to 15.8 takes the major
branch (a parameter-group create call is issued), and the instance
scenario 15.2 to 15.8 takes the minor branch (no call is issued). -/
theorem C8_parameter_group_migration_witness :
    (∃ nm fam, PGCall.createClusterPG nm fam ∈ handle_parameter_groups_upgrade "db1"
        "13.4".data "15.8".data "Aurora" (some "cpg") (some "ipg") [] []
      ∨ PGCall.createInstancePG nm fam ∈ handle_parameter_groups_upgrade "db1"
        "13.4".data "15.8".data "Aurora" (some "cpg") (some "ipg") [] [])
  ∧ handle_parameter_groups_upgrade "db2" "15.2".data "15.8".data "RDS"
      none (some "ipg2") [] [] = [] :=
  ⟨((C8_parameter_group_migration "db1" "13.4".data "15.8".data "Aurora"
      (some "cpg") (some "ipg") [] []).1 (Or.inl rfl)).mpr (by decide),
   (C8_parameter_group_migration "db2" "15.2".data "15.8".data "RDS"
      none (some "ipg2") [] []).2.1 (by decide)⟩

/-! ## Upgrade gate and orchestrator (`scripts/rds_upgrade_tool.py`,
`validate_versions` and `main`)

`validate_versions` compares `packaging.version.parse(current)` with
`packaging.version.parse(target)`.  For plain dotted numeric version
strings (the only well-formed engine versions; `packaging` raises on
anything else) the parse yields the release tuple of the dot components
and both equality and order are the zero-padded lexicographic comparison
of release tuples.  The orchestrator slice of `main` after instance
resolution (lines 459-486) is modelled as a function from the responses
of its collaborators to the list of calls it performs and how the process
ends. -/

inductive GateMsg
  | noUpgradeNeeded
  | upgradeRequired
  | downgradeUnsupported
deriving DecidableEq

/-- The release tuple `packaging.version.parse` extracts from a plain
dotted numeric version string. -/
def pkgRelease (v : List Char) : List Nat :=
  (splitOnC '.' v).map strToNat

/-- `packaging`'s strict order on release tuples: zero-padded
lexicographic less-than. -/
def releaseLt (a b : List Nat) : Bool :=
  let m := max a.length b.length
  tupleLt (padTo a m) (padTo b m)

/-- `packaging`'s equality on release tuples: equal once zero-padded. -/
def releaseEq (a b : List Nat) : Bool :=
  let m := max a.length b.length
  decide (padTo a m = padTo b m)

/-- Embeds `validate_versions`: the returned boolean (upgrade needed)
paired with which of the three log messages the function emits. -/
def validate_versions (current_version target_version : List Char) : Bool × GateMsg :=
  if releaseEq (pkgRelease current_version) (pkgRelease target_version) then
    (false, GateMsg.noUpgradeNeeded)
  else if releaseLt (pkgRelease current_version) (pkgRelease target_version) then
    (true, GateMsg.upgradeRequired)
  else
    (false, GateMsg.downgradeUnsupported)

theorem releaseEq_lt_false (a b : List Nat) (h : releaseEq a b = true) :
    releaseLt a b = false := by
  simp only [releaseEq, decide_eq_true_eq] at h
  simp only [releaseLt, h, tupleLt_irrefl]

theorem releaseLt_asymm (a b : List Nat) (h : releaseLt a b = true) :
    releaseLt b a = false := by
  simp only [releaseLt] at h ⊢
  rw [Nat.max_comm]
  exact tupleLt_asymm _ _ h

theorem releaseLt_eq_false (a b : List Nat) (h : releaseLt a b = true) :
    releaseEq a b = false := by
  cases hE : releaseEq a b with
  | false => rfl
  | true =>
    rw [releaseEq_lt_false a b hE] at h
    exact absurd h (by simp)

theorem releaseEq_comm_false (a b : List Nat) (h : releaseLt a b = true) :
    releaseEq b a = false := by
  cases hE : releaseEq b a with
  | false => rfl
  | true =>
    simp only [releaseEq, decide_eq_true_eq] at hE
    simp only [releaseLt] at h
    rw [Nat.max_comm b.length a.length] at hE
    rw [hE, tupleLt_irrefl] at h
    exact absurd h (by simp)

/-- The calls `main` performs, in order.  `listBG`
(`describe_blue_green_deployments`), `checkStatus` and `preflightCheck`
(SQL reads plus a secret read) are read-only; the rest reach provider
write APIs. -/
inductive Event
  | listBG
  | checkStatus (bg : String)
  | preflightCheck (id : String)
  | createSnapshot (id : String)
  | createBG (id : String)
  | switchoverCall (bg : String)
  | waitSwitchover (bg : String)
  | deleteBG (bg : String)
  | deleteDB (instance_type name : String)
deriving DecidableEq

def Event.isWrite : Event → Bool
  | Event.listBG => false
  | Event.checkStatus _ => false
  | Event.preflightCheck _ => false
  | _ => true

def Event.isPreflight : Event → Bool
  | Event.preflightCheck _ => true
  | _ => false

/-- How the modelled slice of `main` ends: an explicit `sys.exit(code)`, a
normal return (the interpreter then exits 0), or an uncaught exception
(the interpreter then exits 1). -/
inductive ExitKind
  | exited (code : Nat)
  | finished
  | raised
deriving DecidableEq

/-- The Python value held by `switchover_status`: `None`, a status string,
or `False` (returned by `switchover_blue_green_deployment` on failure). -/
inductive SVal
  | pyNone
  | strv (s : String)
  | pyFalse
deriving DecidableEq

/-- Python `switchover_status == 'LITERAL'`. -/
def SVal.eqStr : SVal → String → Bool
  | SVal.strv t, s => t == s
  | _, _ => false

def ofCheck : Option String → SVal
  | some s => SVal.strv s
  | none => SVal.pyNone

/-- Collaborator responses consumed by the modelled slice of `main`:
`bgIdentifier` is the lookup result, `checkStatus1` the first status read,
`preflightBlocked` the result of `fetch_and_check` (`none` models it
raising), `switchoverOk` whether the switchover call succeeds,
`waitResult` the status `wait_for_bg_switchover` returns, and
`deleteBGResult` the database name `delete_blue_green_deployment`
returns. -/
structure MainEnv where
  current : List Char
  target : List Char
  identifier : String
  instance_type : String
  bgIdentifier : Option String
  checkStatus1 : Option String
  preflightBlocked : Option Bool
  switchoverOk : Bool
  waitResult : Option String
  deleteBGResult : Option String

/-- The switchover-and-cleanup chain of `main` (lines 477-486), entered
with the status read for an existing deployment. -/
def mainChain (env : MainEnv) (bg : String) (s1 : SVal) : List Event × ExitKind :=
  let s2 := if s1.eqStr "AVAILABLE" then
      (if env.switchoverOk then SVal.strv "SWITCHOVER_IN_PROGRESS" else SVal.pyFalse)
    else s1
  let s3 := if s2.eqStr "SWITCHOVER_IN_PROGRESS" then ofCheck env.waitResult else s2
  ((if s1.eqStr "AVAILABLE" then [Event.switchoverCall bg] else []) ++
   (if s2.eqStr "SWITCHOVER_IN_PROGRESS" then [Event.waitSwitchover bg] else []) ++
   (if s3.eqStr "SWITCHOVER_COMPLETED" then
      Event.deleteBG bg ::
        (match env.deleteBGResult with
         | some dbname => [Event.deleteDB env.instance_type dbname]
         | none => [])
    else []),
   ExitKind.finished)

/-- Embeds `main` from the gate onwards (lines 459-486): validate the
versions, look the deployment up (a read issued before the gate's exit),
exit 0 when no upgrade is needed, otherwise either poll an existing
deployment and run the chain, or run the pre-flight check and create the
snapshot and blue/green deployment only when it reports not blocked. -/
def mainRun (env : MainEnv) : List Event × ExitKind :=
  let upgrade_needed := (validate_versions env.current env.target).1
  if upgrade_needed = false then ([Event.listBG], ExitKind.exited 0)
  else if optTruthy env.bgIdentifier then
    let bg := env.bgIdentifier.getD ""
    let r := mainChain env bg (ofCheck env.checkStatus1)
    (Event.listBG :: Event.checkStatus bg :: r.1, r.2)
  else
    match env.preflightBlocked with
    | none => ([Event.listBG, Event.preflightCheck env.identifier], ExitKind.raised)
    | some true => ([Event.listBG, Event.preflightCheck env.identifier], ExitKind.finished)
    | some false =>
        ([Event.listBG, Event.preflightCheck env.identifier,
          Event.createSnapshot env.identifier, Event.createBG env.identifier],
         ExitKind.finished)

theorem mem_if_nil {α : Type} {c : Prop} [Decidable c] {l : List α} {a : α}
    (h : a ∈ (if c then l else [])) : c ∧ a ∈ l := by
  by_cases hc : c
  · rw [if_pos hc] at h
    exact ⟨hc, h⟩
  · rw [if_neg hc] at h
    simp at h

theorem mainChain_mem (env : MainEnv) (bg : String) (s1 : SVal) :
    ∀ e ∈ (mainChain env bg s1).1,
      e = Event.switchoverCall bg ∨ e = Event.waitSwitchover bg ∨
      e = Event.deleteBG bg ∨ ∃ nm, e = Event.deleteDB env.instance_type nm := by
  intro e he
  cases henv : env.deleteBGResult with
  | none =>
    simp only [mainChain, henv, List.mem_append] at he
    rcases he with (h | h) | h
    · exact Or.inl (by simpa using (mem_if_nil h).2)
    · exact Or.inr (Or.inl (by simpa using (mem_if_nil h).2))
    · have h2 := (mem_if_nil h).2
      simp at h2
      exact Or.inr (Or.inr (Or.inl h2))
  | some dbname =>
    simp only [mainChain, henv, List.mem_append] at he
    rcases he with (h | h) | h
    · exact Or.inl (by simpa using (mem_if_nil h).2)
    · exact Or.inr (Or.inl (by simpa using (mem_if_nil h).2))
    · have h2 := (mem_if_nil h).2
      simp at h2
      rcases h2 with h2 | h2
      · exact Or.inr (Or.inr (Or.inl h2))
      · exact Or.inr (Or.inr (Or.inr ⟨dbname, h2⟩))

theorem mainChain_exit (env : MainEnv) (bg : String) (s1 : SVal) :
    (mainChain env bg s1).2 = ExitKind.finished := rfl

theorem mainChain_no_createBG (env : MainEnv) (bg : String) (s1 : SVal) (s : String) :
    Event.createBG s ∉ (mainChain env bg s1).1 := by
  intro hmem
  rcases mainChain_mem env bg s1 _ hmem with h | h | h | ⟨nm, h⟩ <;> simp at h

theorem mainChain_countP (env : MainEnv) (bg : String) (s1 : SVal) :
    List.countP Event.isPreflight (mainChain env bg s1).1 = 0 := by
  rw [List.countP_eq_zero]
  intro e he
  rcases mainChain_mem env bg s1 e he with h | h | h | ⟨nm, h⟩ <;> subst h <;> simp [Event.isPreflight]

/-- Claim C1, amended on the downgrade leg: when the parsed versions are
equal, the gate reports no upgrade needed, no provider write call is
issued, and the process exits 0; when current < target it reports that an
upgrade is required and proceeds past the gate (the gate's `sys.exit(0)`
is not taken; the run ends in a normal return or a propagated exception);
when current > target the gate logs the downgrade-unsupported error but
returns the same `False` as the no-upgrade case, so the process likewise
issues no write call and exits 0 — not 1 as the claim states. -/
theorem C1_upgrade_gate (env : MainEnv)
    (_hc : (splitOnC '.' env.current).all isDigitStr = true)
    (_ht : (splitOnC '.' env.target).all isDigitStr = true) :
    (releaseEq (pkgRelease env.current) (pkgRelease env.target) = true →
      validate_versions env.current env.target = (false, GateMsg.noUpgradeNeeded)
      ∧ mainRun env = ([Event.listBG], ExitKind.exited 0)
      ∧ ∀ e ∈ (mainRun env).1, e.isWrite = false)
  ∧ (releaseLt (pkgRelease env.current) (pkgRelease env.target) = true →
      validate_versions env.current env.target = (true, GateMsg.upgradeRequired)
      ∧ (mainRun env).2 ≠ ExitKind.exited 0
      ∧ ((mainRun env).2 = ExitKind.finished ∨ (mainRun env).2 = ExitKind.raised))
  ∧ (releaseLt (pkgRelease env.target) (pkgRelease env.current) = true →
      validate_versions env.current env.target = (false, GateMsg.downgradeUnsupported)
      ∧ mainRun env = ([Event.listBG], ExitKind.exited 0)
      ∧ ∀ e ∈ (mainRun env).1, e.isWrite = false) := by
  refine ⟨?_, ?_, ?_⟩
  · intro hEq
    have hval : validate_versions env.current env.target = (false, GateMsg.noUpgradeNeeded) := by
      simp [validate_versions, hEq]
    have hrun : mainRun env = ([Event.listBG], ExitKind.exited 0) := by
      simp [mainRun, hval]
    refine ⟨hval, hrun, ?_⟩
    rw [hrun]
    intro e he
    simp at he
    subst he
    rfl
  · intro hLt
    have hEq : releaseEq (pkgRelease env.current) (pkgRelease env.target) = false :=
      releaseLt_eq_false _ _ hLt
    have hval : validate_versions env.current env.target = (true, GateMsg.upgradeRequired) := by
      simp [validate_versions, hEq, hLt]
    have hne : (mainRun env).2 = ExitKind.finished ∨ (mainRun env).2 = ExitKind.raised := by
      by_cases hbg : optTruthy env.bgIdentifier
      · left
        simp [mainRun, hval, hbg, mainChain_exit]
      · have hbg' : optTruthy env.bgIdentifier = false := by
          rcases Bool.eq_false_or_eq_true (optTruthy env.bgIdentifier) with h | h
          · exact absurd h hbg
          · exact h
        cases hpf : env.preflightBlocked with
        | none =>
          right
          simp [mainRun, hval, hbg', hpf]
        | some b =>
          cases b with
          | true => left; simp [mainRun, hval, hbg', hpf]
          | false => left; simp [mainRun, hval, hbg', hpf]
    refine ⟨hval, ?_, hne⟩
    rcases hne with h | h <;> rw [h] <;> simp
  · intro hGt
    have hEq : releaseEq (pkgRelease env.current) (pkgRelease env.target) = false :=
      releaseEq_comm_false _ _ hGt
    have hLt' : releaseLt (pkgRelease env.current) (pkgRelease env.target) = false :=
      releaseLt_asymm _ _ hGt
    have hval : validate_versions env.current env.target =
        (false, GateMsg.downgradeUnsupported) := by
      simp [validate_versions, hEq, hLt']
    have hrun : mainRun env = ([Event.listBG], ExitKind.exited 0) := by
      simp [mainRun, hval]
    refine ⟨hval, hrun, ?_⟩
    rw [hrun]
    intro e he
    simp at he
    subst he
    rfl

/-- Witness for the amended C1 with equal versions: the gate reports no
upgrade needed, the run performs only the read-only deployment listing
and exits 0. -/
theorem C1_upgrade_gate_witness :
    validate_versions "15.8".data "15.8".data = (false, GateMsg.noUpgradeNeeded)
  ∧ mainRun ⟨"15.8".data, "15.8".data, "db1", "RDS", none, none, some false, true, none, none⟩ =
      ([Event.listBG], ExitKind.exited 0) := by
  have h := (C1_upgrade_gate
    ⟨"15.8".data, "15.8".data, "db1", "RDS", none, none, some false, true, none, none⟩
    (by decide) (by decide)).1 (by decide)
  exact ⟨h.1, h.2.1⟩

/-- Claim C1 as stated is refuted on its downgrade leg: with current
version `15.8` and target `15.2` the run takes the no-upgrade exit — it
prints no-upgrade, issues no write call, and exits 0, not 1. -/
theorem C1_downgrade_counterexample :
    mainRun ⟨"15.8".data, "15.2".data, "db1", "RDS", none, none, some false, true, none, none⟩ =
      ([Event.listBG], ExitKind.exited 0)
  ∧ ExitKind.exited 0 ≠ ExitKind.exited 1 := by
  exact ⟨by decide, by decide⟩

/-- Claim C6: `main` issues the blue/green creation call only when the
pre-flight check has reported not blocked; a blocked report or a raised
pre-flight exception means no creation in that run; the pre-flight check
is never issued more than once per run (no retry), and in the blocked and
raised cases the run stops right after the check (in particular it never
reaches the wait loop). -/
theorem C6_preflight_gates_creation (env : MainEnv) :
    (∀ s, Event.createBG s ∈ (mainRun env).1 → env.preflightBlocked = some false)
  ∧ List.countP Event.isPreflight (mainRun env).1 ≤ 1
  ∧ ((validate_versions env.current env.target).1 = true →
      optTruthy env.bgIdentifier = false →
      (env.preflightBlocked = some true →
        mainRun env = ([Event.listBG, Event.preflightCheck env.identifier], ExitKind.finished))
      ∧ (env.preflightBlocked = none →
        mainRun env = ([Event.listBG, Event.preflightCheck env.identifier], ExitKind.raised))) := by
  by_cases hup : (validate_versions env.current env.target).1 = false
  · have hrun : mainRun env = ([Event.listBG], ExitKind.exited 0) := by
      simp [mainRun, hup]
    refine ⟨?_, ?_, ?_⟩
    · intro s hmem
      rw [hrun] at hmem
      simp at hmem
    · rw [hrun]
      simp [List.countP_cons, Event.isPreflight]
    · intro h1
      rw [hup] at h1
      exact absurd h1 (by simp)
  · have hup' : (validate_versions env.current env.target).1 = true := by
      rcases Bool.eq_false_or_eq_true ((validate_versions env.current env.target).1) with h | h
      · exact h
      · exact absurd h hup
    by_cases hbg : optTruthy env.bgIdentifier
    · have htrace : (mainRun env).1 = Event.listBG :: Event.checkStatus (env.bgIdentifier.getD "") ::
          (mainChain env (env.bgIdentifier.getD "") (ofCheck env.checkStatus1)).1 := by
        simp [mainRun, hup', hbg]
      refine ⟨?_, ?_, ?_⟩
      · intro s hmem
        rw [htrace] at hmem
        simp at hmem
        exact absurd hmem (mainChain_no_createBG _ _ _ s)
      · rw [htrace]
        simp [List.countP_cons, Event.isPreflight, mainChain_countP]
      · intro h1 h2
        rw [hbg] at h2
        exact absurd h2 (by simp)
    · have hbg' : optTruthy env.bgIdentifier = false := by
        rcases Bool.eq_false_or_eq_true (optTruthy env.bgIdentifier) with h | h
        · exact absurd h hbg
        · exact h
      cases hpf : env.preflightBlocked with
      | none =>
        have hrun : mainRun env =
            ([Event.listBG, Event.preflightCheck env.identifier], ExitKind.raised) := by
          simp [mainRun, hup', hbg', hpf]
        refine ⟨?_, ?_, ?_⟩
        · intro s hmem
          rw [hrun] at hmem
          simp at hmem
        · rw [hrun]
          simp [List.countP_cons, Event.isPreflight]
        · intro h1 h2
          refine ⟨?_, ?_⟩
          · intro h3
            exact absurd h3 (by simp)
          · intro h3
            exact hrun
      | some b =>
        cases b with
        | true =>
          have hrun : mainRun env =
              ([Event.listBG, Event.preflightCheck env.identifier], ExitKind.finished) := by
            simp [mainRun, hup', hbg', hpf]
          refine ⟨?_, ?_, ?_⟩
          · intro s hmem
            rw [hrun] at hmem
            simp at hmem
          · rw [hrun]
            simp [List.countP_cons, Event.isPreflight]
          · intro h1 h2
            refine ⟨fun _ => hrun, ?_⟩
            intro h3
            exact absurd h3 (by simp)
        | false =>
          have hrun : mainRun env =
              ([Event.listBG, Event.preflightCheck env.identifier,
                Event.createSnapshot env.identifier, Event.createBG env.identifier],
               ExitKind.finished) := by
            simp [mainRun, hup', hbg', hpf]
          refine ⟨?_, ?_, ?_⟩
          · intro s _
            rfl
          · rw [hrun]
            simp [List.countP_cons, Event.isPreflight]
          · intro h1 h2
            refine ⟨?_, ?_⟩
            · intro h3
              exact absurd h3 (by simp)
            · intro h3
              exact absurd h3 (by simp)

/-- Witness for C6: with an upgrade required, no existing deployment and a
blocked pre-flight, the run stops right after the check without creating
anything. -/
theorem C6_preflight_gates_creation_witness :
    mainRun ⟨"13.4".data, "15.8".data, "db1", "RDS", none, none, some true, true, none, none⟩ =
      ([Event.listBG, Event.preflightCheck "db1"], ExitKind.finished) :=
  ((C6_preflight_gates_creation
    ⟨"13.4".data, "15.8".data, "db1", "RDS", none, none, some true, true, none, none⟩).2.2
    (by decide) (by decide)).1 rfl

/-- Witness for C10: a failed listing yields no identifier. -/
theorem C10_bg_lookup_substring_witness :
    get_blue_green_deployment_identifier none "mydb".data = none :=
  (C10_bg_lookup_substring [] "mydb".data).2.1
